import Mathlib

/-!
Shallow embedding of the core logic of `src/main.py` ("Helo Wrlod - Simple
Uptime Monitor"): the probe worker's backoff loop (`MonitorThread.run`), the
rolling sample window (`Sparkline.push` / `Sparkline._redraw`), result
aggregation (`HostPanel._apply_result`), panel start-up (`HostPanel.start`)
and the ordering policy (`App._sort_panels`).  Seconds and milliseconds are
modelled as rationals; Python's truthiness-based `x or d` idiom is modelled
explicitly.
-/

namespace UptimeMonitor

/-- `MonitorThread._max_backoff` (seconds), src/main.py line 79. -/
def maxBackoff : ℚ := 30

/-- One failure-streak update, src/main.py lines 97-100:
reset to 0 on success, else increment capped at 10. -/
def stepFailures (failures : Nat) (ok : Bool) : Nat :=
  if ok then 0 else min (failures + 1) 10

/-- Backoff computation, src/main.py line 103:
`min(self._max_backoff, base * (2 ** self._failures)) if self._failures > 0 else base`. -/
def backoff (base : ℚ) (streak : Nat) : ℚ :=
  if 0 < streak then min maxBackoff (base * 2 ^ streak) else base

/-- Next wait, src/main.py line 104: `max(0.0, backoff - elapsed)`. -/
def waitTime (base : ℚ) (streak : Nat) (elapsed : ℚ) : ℚ :=
  max 0 (backoff base streak - elapsed)

/-- Failure streak after `k` consecutive failed probes starting from 0. -/
def failStreak (k : Nat) : Nat :=
  List.foldl stepFailures 0 (List.replicate k false)

/-- Wait after the `k`-th probe in the always-refused scenario with
base interval 2 s and negligible probe duration. -/
def refusedWait (k : Nat) : ℚ :=
  waitTime 2 (failStreak k) 0

lemma stepFailures_false (f : Nat) : stepFailures f false = min (f + 1) 10 := rfl

lemma foldl_stepFailures_replicate (k f : Nat) :
    List.foldl stepFailures f (List.replicate k false) = min (f + k) 10 ∨
      (k = 0 ∧ List.foldl stepFailures f (List.replicate k false) = f) := by
  induction k generalizing f with
  | zero => exact Or.inr ⟨rfl, rfl⟩
  | succ n ih =>
    left
    rw [List.replicate_succ, List.foldl_cons, stepFailures_false]
    rcases ih (min (f + 1) 10) with h | ⟨hn, h⟩
    · rw [h]; omega
    · subst hn; rw [h]

lemma failStreak_eq (k : Nat) (hk : 1 ≤ k) : failStreak k = min k 10 := by
  unfold failStreak
  rcases foldl_stepFailures_replicate k 0 with h | ⟨hk0, _⟩
  · simpa using h
  · omega

lemma backoff_zero (base : ℚ) : backoff base 0 = base := rfl

lemma backoff_pos_streak (base : ℚ) (s : Nat) (hs : 1 ≤ s) :
    backoff base s = min 30 (base * 2 ^ s) := by
  unfold backoff maxBackoff
  rw [if_pos (by omega : 0 < s)]

lemma backoff_mono_of_pos (base : ℚ) (hb : 0 ≤ base) (s : Nat) (hs : 1 ≤ s) :
    backoff base s ≤ backoff base (s + 1) := by
  rw [backoff_pos_streak base s hs, backoff_pos_streak base (s + 1) (by omega)]
  refine min_le_min le_rfl ?_
  exact mul_le_mul_of_nonneg_left (pow_le_pow_right₀ one_le_two (Nat.le_succ s)) hb

/-- C1: the wait formula of `MonitorThread.run` matches the spec, and the
backoff sequence is non-decreasing in the streak for `streak ≥ 1`
unconditionally, and from streak 0 as well whenever the base interval does
not exceed the 30 s cap. -/
theorem backoff_formula_and_monotone (base elapsed : ℚ) (streak : Nat)
    (hb : 0 ≤ base) :
    backoff base 0 = base ∧
    (1 ≤ streak → backoff base streak = min 30 (base * 2 ^ streak)) ∧
    waitTime base streak elapsed = max 0 (backoff base streak - elapsed) ∧
    (1 ≤ streak → backoff base streak ≤ backoff base (streak + 1)) ∧
    (base ≤ 30 → backoff base streak ≤ backoff base (streak + 1)) := by
  refine ⟨rfl, fun hs => backoff_pos_streak base streak hs, rfl,
    fun hs => backoff_mono_of_pos base hb streak hs, fun hcap => ?_⟩
  rcases Nat.eq_zero_or_pos streak with h0 | hpos
  · subst h0
    rw [backoff_zero, backoff_pos_streak base 1 le_rfl]
    refine le_min hcap ?_
    calc base = base * 1 := (mul_one base).symm
    _ ≤ base * 2 ^ 1 := by
        exact mul_le_mul_of_nonneg_left (by norm_num) hb
  · exact backoff_mono_of_pos base hb streak hpos

/-- Witness for `backoff_formula_and_monotone` at base 2, streak 3, elapsed 1. -/
theorem backoff_formula_and_monotone_witness :
    backoff 2 3 = min 30 (2 * 2 ^ 3) ∧ backoff 2 3 ≤ backoff 2 4 :=
  ⟨((backoff_formula_and_monotone 2 1 3 (by norm_num)).2.1 (by norm_num)),
   ((backoff_formula_and_monotone 2 1 3 (by norm_num)).2.2.2.1 (by norm_num))⟩

/-- C1 counterexample: the backoff sequence is NOT non-decreasing from
streak 0 to streak 1 when the base interval exceeds the 30 s cap
(base 32: backoff drops from 32 to 30). -/
theorem backoff_not_monotone_at_large_base :
    backoff 32 0 = 32 ∧ backoff 32 1 = 30 ∧ ¬ backoff 32 0 ≤ backoff 32 1 := by
  refine ⟨rfl, ?_, ?_⟩ <;> · unfold backoff maxBackoff; norm_num

/-- C2: starting from streak 0, the failure streak never exceeds 10 after
any sequence of probe outcomes, and any successful probe resets it to 0. -/
theorem failures_capped_and_reset :
    (∀ outcomes : List Bool, List.foldl stepFailures 0 outcomes ≤ 10) ∧
    (∀ f : Nat, stepFailures f true = 0) := by
  constructor
  · have key : ∀ (outcomes : List Bool) (f : Nat), f ≤ 10 →
        List.foldl stepFailures f outcomes ≤ 10 := by
      intro outcomes
      induction outcomes with
      | nil => intro f hf; simpa using hf
      | cons b rest ih =>
        intro f hf
        rw [List.foldl_cons]
        refine ih _ ?_
        cases b <;> simp [stepFailures]
    exact fun outcomes => key outcomes 0 (by norm_num)
  · intro f; rfl

/-- C3 counterexample: in the always-refused scenario with interval 2 s, the
wait after the first failed probe (streak 1) is 4 s, not the claimed 2 s. -/
lemma refusedWait_eval (k : Nat) :
    refusedWait k = max 0 (backoff 2 (failStreak k) - 0) := rfl

theorem refused_wait_streak_one_is_four :
    refusedWait 1 = 4 ∧ ¬ refusedWait 1 = 2 := by
  have h1 : failStreak 1 = 1 := rfl
  rw [refusedWait_eval, h1, backoff_pos_streak 2 1 le_rfl]
  norm_num

/-- C3 amended: in the always-refused scenario with interval 2 s and
negligible probe duration, the waits are 4 s at streak 1, 8 s at streak 2,
16 s at streak 3, and 30 s (capped, since 2·2⁴ = 32 > 30) from streak 4
onwards. -/
theorem refused_wait_sequence (k : Nat) (hk : 4 ≤ k) :
    refusedWait 1 = 4 ∧ refusedWait 2 = 8 ∧ refusedWait 3 = 16 ∧
    refusedWait k = 30 := by
  have e1 : refusedWait 1 = 4 := by
    rw [refusedWait_eval, show failStreak 1 = 1 from rfl,
      backoff_pos_streak 2 1 le_rfl]
    norm_num
  have e2 : refusedWait 2 = 8 := by
    rw [refusedWait_eval, show failStreak 2 = 2 from rfl,
      backoff_pos_streak 2 2 (by norm_num)]
    norm_num
  have e3 : refusedWait 3 = 16 := by
    rw [refusedWait_eval, show failStreak 3 = 3 from rfl,
      backoff_pos_streak 2 3 (by norm_num)]
    norm_num
  refine ⟨e1, e2, e3, ?_⟩
  rw [refusedWait_eval, failStreak_eq k (by omega)]
  have hs : 1 ≤ min k 10 := by omega
  rw [backoff_pos_streak 2 (min k 10) hs]
  have hpow : (30 : ℚ) ≤ 2 * 2 ^ min k 10 := by
    have h5 : (2 : ℚ) ^ 4 ≤ 2 ^ min k 10 :=
      pow_le_pow_right₀ one_le_two (by omega)
    nlinarith
  rw [min_eq_left hpow]
  norm_num

/-- Witness for `refused_wait_sequence` at k = 7. -/
theorem refused_wait_sequence_witness : refusedWait 7 = 30 :=
  (refused_wait_sequence 7 (by norm_num)).2.2.2

/-! ### Sample window (`Sparkline`) -/

/-- Python's `x or d` on an optional float: `None` and `0.0` are falsy. -/
def pyOr (x : Option ℚ) (d : ℚ) : ℚ :=
  match x with
  | none => d
  | some v => if v = 0 then d else v

/-- Python's `x or d` on a plain float: `0.0` is falsy. -/
def pyOrQ (x d : ℚ) : ℚ := if x = 0 then d else x

/-- The rolling sample window of a `Sparkline`: `max_points` and `points`
(src/main.py lines 126-129). -/
structure Spark where
  maxPoints : Nat
  points : List (ℚ × Bool)

/-- `Sparkline.push` (src/main.py lines 145-150): append
`(latency_ms or 0.0, bool(ok))`, then `pop(0)` if the length exceeds
`max_points`. -/
def Spark.push (s : Spark) (latency : Option ℚ) (ok : Bool) : Spark :=
  let pts := s.points ++ [(pyOr latency 0, ok)]
  { s with points := if s.maxPoints < pts.length then pts.tail else pts }

/-- Fold a sequence of pushes over a window. -/
def pushList (s : Spark) (ps : List (Option ℚ × Bool)) : Spark :=
  List.foldl (fun acc pv => acc.push pv.1 pv.2) s ps

/-- `Sparkline.__init__` default capacity `max_points=80` (line 126). -/
def sparkDefaultCapacity : Nat := 80

/-- `HostPanel` builds its sparkline with `max_points=100` (line 240). -/
def panelSparkCapacity : Nat := 100

lemma push_maxPoints (s : Spark) (l : Option ℚ) (ok : Bool) :
    (s.push l ok).maxPoints = s.maxPoints := rfl

lemma push_length_le (s : Spark) (l : Option ℚ) (ok : Bool)
    (h : s.points.length ≤ s.maxPoints) :
    (s.push l ok).points.length ≤ s.maxPoints := by
  unfold Spark.push
  by_cases hc : s.maxPoints < (s.points ++ [(pyOr l 0, ok)]).length
  · simp only [hc, if_true]
    simp only [List.length_tail, List.length_append, List.length_singleton]
    omega
  · simp only [hc, if_false]
    simp only [List.length_append, List.length_singleton] at hc ⊢
    omega

lemma pushList_length_le (s : Spark) (ps : List (Option ℚ × Bool))
    (h : s.points.length ≤ s.maxPoints) :
    (pushList s ps).points.length ≤ (pushList s ps).maxPoints := by
  unfold pushList
  induction ps generalizing s with
  | nil => simpa using h
  | cons p rest ih =>
    rw [List.foldl_cons]
    exact ih _ (by rw [push_maxPoints] at *; exact push_length_le s p.1 p.2 h)

lemma pushList_maxPoints (s : Spark) (ps : List (Option ℚ × Bool)) :
    (pushList s ps).maxPoints = s.maxPoints := by
  unfold pushList
  induction ps generalizing s with
  | nil => rfl
  | cons p rest ih => rw [List.foldl_cons]; exact ih _

/-- C4: the sample window is a bounded FIFO: a window within capacity stays
within capacity under any sequence of pushes; a push at exact capacity drops
the oldest (head) sample; and the capacities used by the program (default 80,
host panel 100) lie in the 80-100 range. -/
theorem sample_window_bounded_fifo (s : Spark) (ps : List (Option ℚ × Bool))
    (l : Option ℚ) (ok : Bool) :
    (s.points.length ≤ s.maxPoints →
      (pushList s ps).points.length ≤ s.maxPoints) ∧
    (s.points.length = s.maxPoints → 0 < s.points.length →
      (s.push l ok).points = s.points.tail ++ [(pyOr l 0, ok)]) ∧
    (80 ≤ sparkDefaultCapacity ∧ sparkDefaultCapacity ≤ 100 ∧
      80 ≤ panelSparkCapacity ∧ panelSparkCapacity ≤ 100) := by
  refine ⟨fun h => ?_, fun hlen hpos => ?_, by norm_num [sparkDefaultCapacity, panelSparkCapacity]⟩
  · have := pushList_length_le s ps h
    rwa [pushList_maxPoints] at this
  · unfold Spark.push
    have hc : s.maxPoints < (s.points ++ [(pyOr l 0, ok)]).length := by
      simp only [List.length_append, List.length_singleton]
      omega
    simp only [hc, if_true]
    obtain ⟨a, t, hpts⟩ := List.exists_cons_of_ne_nil (List.length_pos.mp hpos)
    rw [hpts]
    simp

/-- Witness for `sample_window_bounded_fifo`: a window of capacity 2 holding
two samples evicts the oldest on the next push. -/
theorem sample_window_bounded_fifo_witness :
    ((Spark.mk 2 [(1, true), (2, false)]).push (some 3) true).points =
      [(1, true), (2, false)].tail ++ [(pyOr (some 3) 0, true)] :=
  (sample_window_bounded_fifo (Spark.mk 2 [(1, true), (2, false)]) []
    (some 3) true).2.1 rfl (by norm_num)

/-! ### Result aggregation (`HostPanel._apply_result`) -/

/-- One probe outcome as delivered on the worker queue: `ok` and the
optional latency (present iff `ok` per the `tcp_ping` contract). -/
structure ProbeResult where
  ok : Bool
  latency : Option ℚ

/-- `HostPanel`'s failure sentinel `1e12` (src/main.py lines 210 and 359). -/
def sentinel : ℚ := 10 ^ 12

/-- The aggregated per-host view held by a `HostPanel`: `_last_ok`
(initially `None`), `_last_latency`, and the sparkline window. -/
structure HostView where
  lastOkFlag : Option Bool
  lastLatency : ℚ
  spark : Spark

/-- State effect of `HostPanel._apply_result` (src/main.py lines 327-364):
`self.spark.push(latency, ok)`, `self._last_ok = ok`, and
`self._last_latency = float(latency or 1e12)`. -/
def applyResult (h : HostView) (r : ProbeResult) : HostView :=
  { lastOkFlag := some r.ok
    lastLatency := pyOr r.latency sentinel
    spark := h.spark.push r.latency r.ok }

lemma push_getLast (s : Spark) (l : Option ℚ) (ok : Bool)
    (hcap : 1 ≤ s.maxPoints) :
    (s.push l ok).points.getLast? = some (pyOr l 0, ok) := by
  unfold Spark.push
  by_cases hc : s.maxPoints < (s.points ++ [(pyOr l 0, ok)]).length
  · simp only [hc, if_true]
    have hlen : 0 < s.points.length := by
      simp only [List.length_append, List.length_singleton] at hc
      omega
    obtain ⟨a, t, hpts⟩ := List.exists_cons_of_ne_nil (List.length_pos.mp hlen)
    rw [hpts]
    simp only [List.cons_append, List.tail_cons]
    exact List.getLast?_concat t
  · simp only [hc, if_false]
    exact List.getLast?_concat s.points

/-- C5 amended: `_apply_result` sets `lastOk` to the result's flag, sets
`lastLatencyMs` to the probed latency when `ok` and the latency is nonzero
(a zero latency and a failed probe both yield the sentinel `1e12`, the
code's stand-in for +inf), and appends `(latencyMs or 0, ok)` as the newest
sample of the window. -/
theorem apply_result_fields (h : HostView) (r : ProbeResult) (l : ℚ) :
    (applyResult h r).lastOkFlag = some r.ok ∧
    (r.latency = some l → l ≠ 0 → (applyResult h r).lastLatency = l) ∧
    (r.latency = none → (applyResult h r).lastLatency = sentinel) ∧
    (r.latency = some 0 → (applyResult h r).lastLatency = sentinel) ∧
    (1 ≤ h.spark.maxPoints →
      (applyResult h r).spark.points.getLast? = some (pyOr r.latency 0, r.ok)) := by
  refine ⟨rfl, fun hl hnz => ?_, fun hl => ?_, fun hl => ?_,
    fun hcap => push_getLast h.spark r.latency r.ok hcap⟩
  · simp [applyResult, pyOr, hl, hnz]
  · simp [applyResult, pyOr, hl]
  · simp [applyResult, pyOr, hl]

/-- Witness for `apply_result_fields` on a successful 5 ms probe. -/
theorem apply_result_fields_witness :
    (applyResult (HostView.mk none 0 (Spark.mk 100 [])) (ProbeResult.mk true (some 5))).lastLatency = 5 :=
  (apply_result_fields (HostView.mk none 0 (Spark.mk 100 []))
    (ProbeResult.mk true (some 5)) 5).2.1 rfl (by norm_num)

/-- C5 counterexample: a successful probe whose measured latency is exactly
0 ms is stored as the sentinel `1e12`, not as the probed latency, because
`float(latency or 1e12)` treats `0.0` as falsy. -/
theorem apply_result_zero_latency_counterexample :
    (applyResult (HostView.mk none 0 (Spark.mk 100 []))
        (ProbeResult.mk true (some 0))).lastLatency = sentinel ∧
      sentinel ≠ 0 :=
  ⟨rfl, by norm_num [sentinel]⟩

/-! ### Derived 95th percentile (`Sparkline._redraw`) -/

/-- Latencies of the successful samples in the window:
`[p[0] for p in self.points if p[1]]` (src/main.py line 167). -/
def successLatencies (pts : List (ℚ × Bool)) : List ℚ :=
  (pts.filter (fun p => p.2)).map (fun p => p.1)

/-- `lat_vals = [...] or [0.0]` (line 167): an empty comprehension is falsy
and falls back to `[0.0]`. -/
def latVals (pts : List (ℚ × Bool)) : List ℚ :=
  if successLatencies pts = [] then [0] else successLatencies pts

/-- `p95_index = int(max(0, int(len * 0.95) - 1))` (line 169): for natural
`n`, `int(n * 0.95)` is `19 * n / 20`, and Nat subtraction floors at 0. -/
def p95Index (n : Nat) : Nat := 19 * n / 20 - 1

/-- `p95 = lat_vals_sorted[p95_index]` (lines 168-170). -/
def p95 (pts : List (ℚ × Bool)) : ℚ :=
  let sorted := List.insertionSort (· ≤ ·) (latVals pts)
  sorted.getD (p95Index sorted.length) 0

/-- `max_v = max(20.0, p95 or 20.0)` (line 171): the display-scaling value. -/
def maxV (pts : List (ℚ × Bool)) : ℚ := max 20 (pyOrQ (p95 pts) 20)

/-- Modelled from the spec's words for comparison with `p95`: the sample at
sorted-ascending index `max(0, ceil(0.95 * count) - 1)` over the successful
samples, defined as 20 ms when no successful samples exist. -/
def specP95 (pts : List (ℚ × Bool)) : ℚ :=
  let succ := successLatencies pts
  if succ = [] then 20
  else (List.insertionSort (· ≤ ·) succ).getD ((19 * succ.length + 19) / 20 - 1) 0

/-- Ten successful samples with latencies 1..10 ms. -/
def tenPoints : List (ℚ × Bool) :=
  [(1, true), (2, true), (3, true), (4, true), (5, true),
   (6, true), (7, true), (8, true), (9, true), (10, true)]

/-- C6 counterexample: with 10 successful samples 1..10 ms, the spec's
ceiling-based index picks 10 ms while the code's floor-based
`int(len * 0.95) - 1` picks 9 ms. -/
theorem p95_index_counterexample :
    p95 tenPoints = 9 ∧ specP95 tenPoints = 10 ∧ ¬ specP95 tenPoints = p95 tenPoints := by
  refine ⟨?_, ?_, ?_⟩ <;> decide

/-- C6 amended: for a window with at least one successful sample, the code's
95th percentile is the sorted-ascending successful sample at index
`max(0, floor(0.95 * count) - 1)` (a member of the successful samples); when
no successful sample exists the raw percentile is 0 and the display-scaling
value `max_v` is 20 ms. -/
theorem p95_floor_index_and_empty_default (pts : List (ℚ × Bool)) :
    (successLatencies pts ≠ [] →
      p95 pts =
        (List.insertionSort (· ≤ ·) (successLatencies pts)).getD
          (p95Index (successLatencies pts).length) 0 ∧
      p95 pts ∈ successLatencies pts) ∧
    (successLatencies pts = [] → p95 pts = 0 ∧ maxV pts = 20) := by
  constructor
  · intro hne
    have hlv : latVals pts = successLatencies pts := if_neg hne
    have hlen : (List.insertionSort (· ≤ ·) (successLatencies pts)).length =
        (successLatencies pts).length :=
      List.length_insertionSort _ _
    have heq : p95 pts =
        (List.insertionSort (· ≤ ·) (successLatencies pts)).getD
          (p95Index (successLatencies pts).length) 0 := by
      simp only [p95]
      rw [hlv, hlen]
    refine ⟨heq, ?_⟩
    have hpos : 0 < (successLatencies pts).length := List.length_pos.mpr hne
    have hidx : p95Index (successLatencies pts).length <
        (List.insertionSort (· ≤ ·) (successLatencies pts)).length := by
      rw [hlen]
      unfold p95Index
      omega
    rw [heq, List.getD_eq_getElem _ _ hidx]
    exact (List.mem_insertionSort (· ≤ ·)).mp (List.getElem_mem _)
  · intro hem
    have hlv : latVals pts = [0] := if_pos hem
    have hp : p95 pts = 0 := by
      unfold p95
      rw [hlv]
      rfl
    exact ⟨hp, by rw [maxV, hp]; norm_num [pyOrQ]⟩

/-- Witness for `p95_floor_index_and_empty_default` on `tenPoints` and on an
all-failed window. -/
theorem p95_floor_index_and_empty_default_witness :
    p95 tenPoints ∈ successLatencies tenPoints ∧ maxV [((3 : ℚ), false)] = 20 :=
  ⟨((p95_floor_index_and_empty_default tenPoints).1 (by decide)).2,
   ((p95_floor_index_and_empty_default [((3 : ℚ), false)]).2 (by norm_num [successLatencies])).2⟩

/-! ### Ordering policy (`App._sort_panels`) -/

/-- Sort mode held in `self.sort_by` (src/main.py line 471). -/
inductive SortMode
  | status
  | latency
  | host

/-- The per-panel state the sort keys read: `_last_ok` (`None` initially),
`_last_latency` and the configured host name. -/
structure PanelRow where
  lastOkFlag : Option Bool
  lastLatency : ℚ
  host : String

/-- `HostPanel.last_ok` (line 370): `bool(self._last_ok)`. -/
def PanelRow.lastOk (p : PanelRow) : Bool := p.lastOkFlag.getD false

/-- `str.lower()` modelled character-wise (ASCII case folding via
`Char.toLower`), kept structural so keys evaluate. -/
def lowerStr (s : String) : String := String.mk (s.data.map Char.toLower)

/-- Sort key for `status` (lines 780-782):
`(not p.last_ok(), p.last_latency(), p.get_cfg().host.lower())`. -/
def keyStatus (p : PanelRow) : Lex (Bool × Lex (ℚ × String)) :=
  toLex (!p.lastOk, toLex (p.lastLatency, lowerStr p.host))

/-- Sort key for `latency` (lines 773-775):
`(p.last_latency(), p.get_cfg().host.lower())`. -/
def keyLatency (p : PanelRow) : Lex (ℚ × String) :=
  toLex (p.lastLatency, lowerStr p.host)

/-- Sort key for `host` (lines 776-778): `p.get_cfg().host.lower()`. -/
def keyHost (p : PanelRow) : String := lowerStr p.host

/-- Modelled from the spec's words (section 4.5) for comparison with the
code keys: status mode compares primary `not lastOk`, secondary
`lastLatencyMs` ascending, tertiary lowercase host name ascending. -/
def specKeyStatus (p : PanelRow) : Lex (Bool × Lex (ℚ × String)) :=
  toLex (!p.lastOk, toLex (p.lastLatency, lowerStr p.host))

/-- Modelled from the spec's words: latency mode compares primary
`lastLatencyMs` ascending, secondary lowercase host name ascending. -/
def specKeyLatency (p : PanelRow) : Lex (ℚ × String) :=
  toLex (p.lastLatency, lowerStr p.host)

/-- Modelled from the spec's words: host mode compares the lowercase host
name only. -/
def specKeyHost (p : PanelRow) : String := lowerStr p.host

/-- Key ordering of each sort mode. -/
def rOf : SortMode → PanelRow → PanelRow → Prop
  | SortMode.status => fun a b => keyStatus a ≤ keyStatus b
  | SortMode.latency => fun a b => keyLatency a ≤ keyLatency b
  | SortMode.host => fun a b => keyHost a ≤ keyHost b

instance rOf.decidableRel (m : SortMode) : DecidableRel (rOf m) :=
  match m with
  | SortMode.status => fun a b => inferInstanceAs (Decidable (keyStatus a ≤ keyStatus b))
  | SortMode.latency => fun a b => inferInstanceAs (Decidable (keyLatency a ≤ keyLatency b))
  | SortMode.host => fun a b => inferInstanceAs (Decidable (keyHost a ≤ keyHost b))

instance rOf.isTotal (m : SortMode) : IsTotal PanelRow (rOf m) :=
  ⟨by cases m <;> exact fun a b => le_total _ _⟩

instance rOf.isTrans (m : SortMode) : IsTrans PanelRow (rOf m) :=
  ⟨by cases m <;> exact fun a b c hab hbc => le_trans hab hbc⟩

/-- `App._sort_panels` (src/main.py lines 771-790): `sorted(self.panels,
key=k)` under the mode's key; Python's stable sort is modelled by stable
insertion sort. -/
def sortPanels (m : SortMode) (l : List PanelRow) : List PanelRow :=
  List.insertionSort (rOf m) l

/-- C7: each mode's code key equals the spec's per-mode key; the key order
is total and transitive; two panels comparing equal under a mode have the
same lowercase host name (any remaining tie is a host-name tie, so ties are
fully broken by host name whenever names differ); and sorting twice equals
sorting once (idempotence on an unchanged list). -/
theorem sort_policy_total_tiebreak_idempotent :
    (∀ p : PanelRow,
      keyStatus p = specKeyStatus p ∧ keyLatency p = specKeyLatency p ∧
        keyHost p = specKeyHost p) ∧
    (∀ (m : SortMode) (a b : PanelRow), rOf m a b ∨ rOf m b a) ∧
    (∀ (m : SortMode) (a b c : PanelRow), rOf m a b → rOf m b c → rOf m a c) ∧
    (∀ (m : SortMode) (a b : PanelRow), rOf m a b → rOf m b a →
      lowerStr a.host = lowerStr b.host) ∧
    (∀ (m : SortMode) (l : List PanelRow),
      sortPanels m (sortPanels m l) = sortPanels m l) := by
  refine ⟨fun p => ⟨rfl, rfl, rfl⟩, fun m a b => total_of (rOf m) a b,
    fun m a b c hab hbc => trans_of (rOf m) hab hbc, fun m a b hab hba => ?_,
    fun m l => ?_⟩
  · cases m
    · exact congrArg (fun z => (ofLex (ofLex z).2).2) (le_antisymm hab hba)
    · exact congrArg (fun z => (ofLex z).2) (le_antisymm hab hba)
    · exact le_antisymm hab hba
  · exact List.Sorted.insertionSort_eq (List.sorted_insertionSort (rOf m) l)

/-- Two rows that tie in every status-key component (host names equal up to
case). -/
def rowUpper : PanelRow := PanelRow.mk (some true) 50 "Alpha"

/-- A second row for the tie-breaking witness. -/
def rowLower : PanelRow := PanelRow.mk (some true) 50 "alpha"

/-- Witness for `sort_policy_total_tiebreak_idempotent`: mutual key-order
between two case-variant rows forces equal lowercase host names. -/
theorem sort_policy_witness : lowerStr rowUpper.host = lowerStr rowLower.host :=
  sort_policy_total_tiebreak_idempotent.2.2.2.1 SortMode.status rowUpper rowLower
    (le_of_eq (by decide)) (le_of_eq (by decide))

/-! ### Worker lifecycle (`MonitorThread.run`, `HostPanel.start`) -/

/-- Observable inputs of one `MonitorThread.run` iteration: the stop flag at
the `while` check, the probe outcome, and the stop flag as observed by
`self._stop.wait(wait)`. -/
structure CycleEnv where
  stopAtLoopTop : Bool
  ok : Bool
  stopDuringWait : Bool

/-- `MonitorThread.run` (src/main.py lines 84-106) over a finite trace of
cycle environments: one probe result is emitted per executed cycle, the
failure streak is updated by `stepFailures`, and the loop exits only when a
stop check observes the signal (at the loop top, before probing, or during
the wait, after the result was emitted). -/
def runWorker (failures : Nat) : List CycleEnv → List Bool
  | [] => []
  | c :: rest =>
    if c.stopAtLoopTop then []
    else
      c.ok :: (if c.stopDuringWait then [] else runWorker (stepFailures failures c.ok) rest)

lemma runWorker_length_of_no_stop (envs : List CycleEnv) (f : Nat)
    (h : ∀ e ∈ envs, e.stopAtLoopTop = false ∧ e.stopDuringWait = false) :
    (runWorker f envs).length = envs.length := by
  induction envs generalizing f with
  | nil => rfl
  | cons c rest ih =>
    obtain ⟨h1, h2⟩ := h c (List.mem_cons_self c rest)
    have hrest : ∀ e ∈ rest, e.stopAtLoopTop = false ∧ e.stopDuringWait = false :=
      fun e he => h e (List.mem_cons_of_mem c he)
    simp [runWorker, h1, h2, ih _ hrest]

/-- C8: the worker loop never exits because a probe failed — with no stop
signal it runs one probe per cycle whatever the outcomes are — it can cut a
trace short only when some cycle observes the stop signal, and a stop
observed during the wait ends the run right after the current result, with
no further probe. -/
theorem worker_stops_only_on_signal (f : Nat) (envs : List CycleEnv)
    (c : CycleEnv) (rest : List CycleEnv) :
    ((∀ e ∈ envs, e.stopAtLoopTop = false ∧ e.stopDuringWait = false) →
      (runWorker f envs).length = envs.length) ∧
    ((runWorker f envs).length < envs.length →
      ∃ e ∈ envs, e.stopAtLoopTop = true ∨ e.stopDuringWait = true) ∧
    (c.stopAtLoopTop = false → c.stopDuringWait = true →
      runWorker f (c :: rest) = [c.ok]) := by
  refine ⟨runWorker_length_of_no_stop envs f, fun hlt => ?_, fun h1 h2 => ?_⟩
  · by_contra hno
    push_neg at hno
    have hall : ∀ e ∈ envs, e.stopAtLoopTop = false ∧ e.stopDuringWait = false := by
      intro e he
      have := hno e he
      constructor
      · cases he' : e.stopAtLoopTop
        · rfl
        · exact absurd he' this.1
      · cases he' : e.stopDuringWait
        · rfl
        · exact absurd he' this.2
    rw [runWorker_length_of_no_stop envs f hall] at hlt
    exact lt_irrefl _ hlt
  · simp [runWorker, h1, h2]

/-- Witness for `worker_stops_only_on_signal`: a failed probe followed by a
stop during the wait emits exactly that one result and ends the run. -/
theorem worker_stops_only_on_signal_witness :
    runWorker 0 [CycleEnv.mk false false true] = [false] :=
  (worker_stops_only_on_signal 0 [] (CycleEnv.mk false false true) []).2.2 rfl rfl

/-- The `MonitorConfig` dataclass (src/main.py lines 63-69). -/
structure MonitorConfig where
  host : String
  port : Nat
  interval : ℚ
  timeout : ℚ
  sound_on_change : Bool

/-- The app's global defaults handed to a panel via `get_defaults`
(src/main.py line 305). -/
structure Defaults where
  interval : ℚ
  timeout : ℚ

/-- Python's `str.strip()` modelled structurally: drop whitespace from both
ends. -/
def stripStr (s : String) : String :=
  String.mk (((s.data.dropWhile Char.isWhitespace).reverse.dropWhile
    Char.isWhitespace).reverse)

/-- `HostPanel.start` (src/main.py lines 299-311): a no-op when a live
worker exists or the stripped host is empty; otherwise it overwrites the
panel cfg's interval/timeout with `max(0.5, default)` and creates the
`MonitorThread` on that cfg. Returns the cfg the new worker runs with,
`none` when no worker is created. -/
def panelStart (hasLiveWorker : Bool) (cfg : MonitorConfig) (d : Defaults) :
    Option MonitorConfig :=
  if hasLiveWorker then none
  else if stripStr cfg.host = "" then none
  else some { cfg with interval := max (1/2) d.interval,
                       timeout := max (1/2) d.timeout }

/-- C9 amended: the worker's wait computation reads the interval of its own
cfg, but `HostPanel.start` first overwrites that interval with the clamped
global default, so every host started under the same defaults gets the same
base interval — and hence the same streak-0 wait — regardless of its
configured per-host interval. -/
theorem start_overrides_interval_with_default (l1 l2 : Bool)
    (c1 c2 : MonitorConfig) (d : Defaults) (w1 w2 : MonitorConfig)
    (h1 : panelStart l1 c1 d = some w1) (h2 : panelStart l2 c2 d = some w2) :
    w1.interval = max (1/2) d.interval ∧ w1.interval = w2.interval ∧
    waitTime w1.interval 0 0 = waitTime w2.interval 0 0 := by
  have e1 : w1.interval = max (1/2) d.interval := by
    unfold panelStart at h1
    split_ifs at h1
    injection h1 with h
    rw [← h]
  have e2 : w2.interval = max (1/2) d.interval := by
    unfold panelStart at h2
    split_ifs at h2
    injection h2 with h
    rw [← h]
  exact ⟨e1, by rw [e1, e2], by rw [e1, e2]⟩

/-- Witness for `start_overrides_interval_with_default`: a host configured
with interval 5 starts with the clamped default interval 2. -/
theorem start_overrides_interval_with_default_witness :
    (MonitorConfig.mk "alpha" 22 (max (1/2) 2) (max (1/2) 2) true).interval =
      max (1/2) (2 : ℚ) :=
  (start_overrides_interval_with_default false false
    (MonitorConfig.mk "alpha" 22 5 2 true) (MonitorConfig.mk "beta" 22 9 2 true)
    (Defaults.mk 2 2) _ _ rfl rfl).1

/-- C9 counterexample: two hosts configured with intervals 5 s and 9 s both
start with base interval 2 s (the global default) and identical streak-0
waits, so differently configured intervals do not give different cadences. -/
theorem different_intervals_same_cadence :
    (MonitorConfig.mk "alpha" 22 5 2 true).interval ≠
      (MonitorConfig.mk "beta" 22 9 2 true).interval ∧
    (panelStart false (MonitorConfig.mk "alpha" 22 5 2 true)
        (Defaults.mk 2 2)).map MonitorConfig.interval = some 2 ∧
    (panelStart false (MonitorConfig.mk "beta" 22 9 2 true)
        (Defaults.mk 2 2)).map MonitorConfig.interval = some 2 ∧
    (panelStart false (MonitorConfig.mk "alpha" 22 5 2 true)
        (Defaults.mk 2 2)).map (fun w => waitTime w.interval 0 0) =
      (panelStart false (MonitorConfig.mk "beta" 22 9 2 true)
        (Defaults.mk 2 2)).map (fun w => waitTime w.interval 0 0) := by
  have hA : panelStart false (MonitorConfig.mk "alpha" 22 5 2 true) (Defaults.mk 2 2) =
      some (MonitorConfig.mk "alpha" 22 (max (1/2) 2) (max (1/2) 2) true) := rfl
  have hB : panelStart false (MonitorConfig.mk "beta" 22 9 2 true) (Defaults.mk 2 2) =
      some (MonitorConfig.mk "beta" 22 (max (1/2) 2) (max (1/2) 2) true) := rfl
  have hmax : max (1/2 : ℚ) 2 = 2 := by norm_num
  refine ⟨by norm_num, ?_, ?_, ?_⟩
  · rw [hA]; simp [hmax]; norm_num
  · rw [hB]; simp [hmax]; norm_num
  · rw [hA, hB]; simp [hmax]

/-- C10: starting a panel whose host is empty after stripping whitespace
creates no worker: `HostPanel.start` returns before constructing a
`MonitorThread`, so no probe can run and no result can ever be emitted, and
nothing fails. -/
theorem start_blank_host_noop (live : Bool) (cfg : MonitorConfig)
    (d : Defaults) (h : stripStr cfg.host = "") :
    panelStart live cfg d = none := by
  cases live with
  | true => rfl
  | false => simp [panelStart, h]

/-- Witness for `start_blank_host_noop` on a whitespace-only host name. -/
theorem start_blank_host_noop_witness :
    panelStart false (MonitorConfig.mk "  " 22 2 2 true) (Defaults.mk 2 2) = none :=
  start_blank_host_noop false (MonitorConfig.mk "  " 22 2 2 true)
    (Defaults.mk 2 2) (by decide)

end UptimeMonitor
